import Mathlib

/-!
Verification of the kivik CouchDB-compatible view engine against its
specification.  The definitions below are shallow embeddings of the Go
sources: `x/sqlite/reduce/reduce.go` (the grouping / re-reduce algorithm),
`kivik.go` (database-name validation in `Client.CreateDB`), and the server
authentication helpers (`validateDBMembership`).  Components whose code is
not among the sources (the query-option validator, the scripting sandbox,
the built-in `_stats` reducer, the cancelable read-closer) are modelled
from the specification, and are marked as such in their doc comments.
-/

namespace Kivik

/-- A JSON value, the Go `any` holding unmarshalled JSON.  Go's `nil`
interface (JSON `null`, and also an unset key) is `JSON.null`.  Numbers are
modelled as integers, which covers every value the claims mention. -/
inductive JSON where
  | null : JSON
  | bool : Bool → JSON
  | num : Int → JSON
  | str : String → JSON
  | arr : List JSON → JSON
  | obj : List (String × JSON) → JSON

mutual

/-- Structural equality of JSON values: the embedding of Go's
`reflect.DeepEqual` as used in `reduce.go` (note `DeepEqual(nil, nil)`
is `true` in Go, matching `beq .null .null = true` here). -/
def JSON.beq : JSON → JSON → Bool
  | .null, .null => true
  | .bool a, .bool b => a == b
  | .num a, .num b => a == b
  | .str a, .str b => a == b
  | .arr as, .arr bs => JSON.beqList as bs
  | .obj as, .obj bs => JSON.beqObj as bs
  | _, _ => false

/-- Element-wise equality of JSON arrays. -/
def JSON.beqList : List JSON → List JSON → Bool
  | [], [] => true
  | a :: as, b :: bs => JSON.beq a b && JSON.beqList as bs
  | _, _ => false

/-- Field-wise equality of JSON objects (insertion order significant,
as for Go slices of key/value pairs). -/
def JSON.beqObj : List (String × JSON) → List (String × JSON) → Bool
  | [], [] => true
  | (k1, v1) :: as, (k2, v2) :: bs => k1 == k2 && JSON.beq v1 v2 && JSON.beqObj as bs
  | _, _ => false

end

/-! ## The reduce / re-reduce engine, from `x/sqlite/reduce/reduce.go` -/

/-- A row of data to be reduced, or the result of a reduction, embedding
the `Row` struct of `reduce.go`.  `first`/`last` are the sequence range
(Go `int`), `id` is the doc ID (empty for pre-reduced rows). -/
structure Row where
  first : Int
  last : Int
  id : String
  key : JSON
  value : JSON

/-- The Go `Func` type: a reduce function over a batch of `(key, id)`
pairs and values, returning a list of results or an error. -/
def RFunc : Type :=
  List (JSON × String) → List JSON → Bool → Except String (List JSON)

/-- `keyLen` from `reduce.go`: 0 for nil, the length for arrays, 1 for
anything else. -/
def keyLen : JSON → Nat
  | .null => 0
  | .arr k => k.length
  | _ => 1

/-- `truncateKey` from `reduce.go`: truncates the key to the given group
level.  Level 0 yields nil; non-array keys are returned unchanged; array
keys are cut to their first `level` elements when `0 < level < length`,
and returned whole otherwise. -/
def truncateKey (key : JSON) (level : Int) : JSON :=
  if level = 0 then .null
  else
    match key with
    | .arr target =>
        if 0 < level ∧ level < (target.length : Int) then .arr (target.take level.toNat)
        else .arr target
    | k => k

/-- The mutable state shared by the `callReduce` closure in `reduce.go`:
the accumulated output rows and the `first`/`last` sequence counters. -/
structure ReduceAcc where
  out : List Row
  first : Int
  last : Int

/-- The loop over `results` inside `callReduce` (`reduce.go` lines
141–153): each result becomes a row carrying the current `first`/`last`,
which are reset to `0, 0` after every appended row; the group key is
attached only when `keyLen key > 0`.  Returns the built rows together
with the final `first`/`last`. -/
def buildRows (results : List JSON) (first last : Int) (key : JSON) :
    List Row × Int × Int :=
  match results with
  | [] => ([], first, last)
  | r :: rest =>
      let row : Row :=
        { first := first, last := last, id := "",
          key := if keyLen key > 0 then key else .null,
          value := r }
      let (rows, f, l) := buildRows rest 0 0 key
      (row :: rows, f, l)

/-- The `callReduce` closure of `reduce.go` (lines 123–168): flushes one
batch.  An empty batch is a no-op; a single-input batch in the rereduce
phase is passed through without invoking `fn`; otherwise `fn` is called
and its results are appended via `buildRows`.  The optional `cb`
callback of the Go code only observes intermediate rows and never
changes the returned output, so it is omitted from the embedding. -/
def callReduce (fn : RFunc) (acc : ReduceAcc) (keys : List (JSON × String))
    (values : List JSON) (rereduce : Bool) (key : JSON) :
    Except String ReduceAcc :=
  if keys.length = 0 then .ok acc
  else if keys.length = 1 ∧ rereduce = true then
    .ok { acc with
          out := acc.out ++ [{ first := acc.first, last := acc.last, id := "",
                               key := key, value := values.headD .null }] }
  else
    match fn keys values rereduce with
    | .error e => .error e
    | .ok results =>
        let (rows, f, l) := buildRows results acc.first acc.last key
        .ok { out := acc.out ++ rows, first := f, last := l }

/-- The state of the row loop in `reduce` (`reduce.go` lines 170–206):
accumulator, current batch, target group key (`.null` is Go's nil) and
the rereduce flag. -/
structure LoopState where
  acc : ReduceAcc
  keys : List (JSON × String)
  values : List JSON
  targetKey : JSON
  rereduce : Bool

/-- Appends the row to the current batch and updates the sequence
counters, as the tail of the loop body does (`reduce.go` lines 199–205). -/
def pushRow (st : LoopState) (row : Row) : LoopState :=
  { st with
    acc := { st.acc with
             first := if st.acc.first = 0 then row.first else st.acc.first,
             last := row.last },
    keys := st.keys ++ [(row.key, row.id)],
    values := st.values ++ [row.value] }

/-- One iteration of the row loop of `reduce` (`reduce.go` lines
184–205): the Go `switch` flushes the batch when the group boundary is
crossed (falling through to reset the target key), re-targets when the
target key is nil, and then accumulates the row. -/
def stepRow (fn : RFunc) (groupLevel : Int) (st : LoopState) (row : Row) :
    Except String LoopState :=
  let rowRe : Bool := row.id == ""
  if (groupLevel == 0 && st.rereduce != rowRe) ||
      (!JSON.beq st.targetKey .null &&
        (!JSON.beq st.targetKey (truncateKey row.key groupLevel) || st.rereduce != rowRe)) then
    match callReduce fn st.acc st.keys st.values st.rereduce st.targetKey with
    | .error e => .error e
    | .ok acc' =>
        .ok (pushRow
          { st with
            acc := acc', keys := [], values := [],
            targetKey := truncateKey row.key groupLevel, rereduce := rowRe } row)
  else if JSON.beq st.targetKey .null then
    .ok (pushRow
      { st with targetKey := truncateKey row.key groupLevel, rereduce := rowRe } row)
  else
    .ok (pushRow st row)

/-- Runs the row loop over the whole input stream. -/
def runRows (fn : RFunc) (groupLevel : Int) (st : LoopState) :
    List Row → Except String LoopState
  | [] => .ok st
  | row :: rest =>
      match stepRow fn groupLevel st row with
      | .error e => .error e
      | .ok st' => runRows fn groupLevel st' rest

/-- The `reduce` function of `reduce.go` (lines 119–228).  After the
final flush, when the output has more than one row, the Go code scans
`out[1:]` comparing each row's truncated key against `lastKey`, which is
set once from `out[0]` and never updated; on a match it recurses on the
output.  The recursion is not structurally decreasing (a misbehaving
`fn` can make it diverge), so it is modelled with a fuel parameter;
claims are evaluated with ample fuel, and fuel exhaustion is reported as
a distinguished error. -/
def reduce (fuel : Nat) (fn : RFunc) (groupLevel : Int) (rows : List Row) :
    Except String (List Row) :=
  match fuel with
  | 0 => .error "recursion fuel exhausted"
  | fuel + 1 =>
      let st0 : LoopState :=
        { acc := { out := [], first := 0, last := 0 },
          keys := [], values := [], targetKey := .null, rereduce := false }
      match runRows fn groupLevel st0 rows with
      | .error e => .error e
      | .ok st =>
          match callReduce fn st.acc st.keys st.values st.rereduce st.targetKey with
          | .error e => .error e
          | .ok acc =>
              match acc.out with
              | [] => .ok []
              | [r] => .ok [r]
              | r0 :: rest =>
                  let lastKey := truncateKey r0.key groupLevel
                  if rest.any fun r => JSON.beq lastKey (truncateKey r.key groupLevel) then
                    reduce fuel fn groupLevel (r0 :: rest)
                  else
                    .ok (r0 :: rest)

/-! ## Database-name validation, from `kivik.go` (`Client.CreateDB`) -/

/-- The first character class of the `validDBName` regular expression
`^[a-z][a-z0-9_$()/+-]*$` in `kivik.go`. -/
def isDBNameFirstChar (c : Char) : Bool :=
  'a' ≤ c && c ≤ 'z'

/-- The repeated character class `[a-z0-9_$()/+-]` of `validDBName`. -/
def isDBNameRestChar (c : Char) : Bool :=
  isDBNameFirstChar c || ('0' ≤ c && c ≤ '9') ||
    c == '_' || c == '$' || c == '(' || c == ')' || c == '+' || c == '/' || c == '-'

/-- `validDBName.MatchString`: the anchored regular expression
`^[a-z][a-z0-9_$()/+-]*$` matches exactly the non-empty strings whose
first character is a lowercase letter and whose remaining characters
are in the repeated class. -/
def validDBName (s : String) : Bool :=
  match s.data with
  | [] => false
  | c :: rest => isDBNameFirstChar c && rest.all isDBNameRestChar

/-- Declarative reading of the regular expression
`^[a-z][a-z0-9_$()/+-]*$`, stated independently of the matcher. -/
def DBNamePattern (s : String) : Prop :=
  ∃ c rest, s.data = c :: rest ∧ ('a' ≤ c ∧ c ≤ 'z') ∧
    ∀ x ∈ rest, ('a' ≤ x ∧ x ≤ 'z') ∨ ('0' ≤ x ∧ x ≤ '9') ∨
      x ∈ ['_', '$', '(', ')', '+', '/', '-']

/-- The observable outcome of `Client.CreateDB` in `kivik.go`: either the
early `BadRequest` return, or the call forwarded to the underlying
driver's `CreateDB` with the name unchanged.  (`mergeOptions` merges the
option maps and cannot fail for map arguments, so it is modelled as
total.) -/
inductive CreateDBOutcome where
  | badRequest (status : Nat) (msg : String)
  | driverCreateDB (dbName : String)
deriving DecidableEq

/-- `Client.CreateDB` from `kivik.go`: names rejected by `validDBName`
yield `BadRequest` with message "invalid database name" before the
driver is consulted; valid names are forwarded to the driver. -/
def createDB (dbName : String) : CreateDBOutcome :=
  if !validDBName dbName then .badRequest 400 "invalid database name"
  else .driverCreateDB dbName

/-! ## Database membership validation, from the server auth middleware -/

/-- A server error carrying an HTTP status and message, embedding
`internal.Error`. -/
structure KError where
  status : Nat
  msg : String
deriving DecidableEq

/-- The authenticated user context (`auth.UserContext`). -/
structure UserContext where
  name : String
  roles : List String
deriving DecidableEq

/-- `UserContext.HasRole`: whether the user holds the role. -/
def UserContext.hasRole (u : UserContext) (role : String) : Bool :=
  u.roles.contains role

/-- The server admin role constant `auth.RoleAdmin` (CouchDB's
`_admin`); its package is not among the sources, only its use. -/
def RoleAdmin : String := "_admin"

/-- One names/roles section of a security object
(`kivik.Members`). -/
structure Members where
  names : List String
  roles : List String
deriving DecidableEq

/-- A security object (`kivik.Security`): admins and members. -/
structure Security where
  admins : Members
  members : Members
deriving DecidableEq

/-- `validateDBMembership` from the server auth middleware: open access
when the Members section is empty; otherwise an unauthenticated user is
Unauthorized, a user matching any member or admin name or role (or
holding the server admin role) is admitted, and anyone else is
Forbidden. -/
def validateDBMembership (user : Option UserContext) (security : Security) :
    Except KError Unit :=
  if security.members.names.length = 0 ∧ security.members.roles.length = 0 then
    .ok ()
  else
    match user with
    | none => .error { status := 401, msg := "User not authenticated" }
    | some u =>
        if security.members.names.any (· == u.name) then .ok ()
        else if security.members.roles.any u.hasRole then .ok ()
        else if security.admins.names.any (· == u.name) then .ok ()
        else if security.admins.roles.any u.hasRole then .ok ()
        else if u.hasRole RoleAdmin then .ok ()
        else .error { status := 403, msg := "User lacks sufficient privileges" }

/-! ## The cancelable read-closer (spec §5); its code is not among the
sources, only its test (`TestCancelableReadCloser`). -/

/-- Modelled from the spec: the error outcomes of a streaming read —
end of data, the "iterator closed" sentinel, and cancellation; the spec
requires these to be distinct conditions. -/
inductive IterErr where
  | eof
  | iteratorClosed
  | canceled
deriving DecidableEq

/-- Modelled from the spec: the state of a cancelable reader — whether
it was closed, whether its context was cancelled, and the data chunks
still to be delivered. -/
structure CancelableReader where
  closed : Bool
  ctxCanceled : Bool
  pending : List String

/-- Modelled from the spec: closing the reader marks it closed. -/
def crClose (r : CancelableReader) : CancelableReader :=
  { r with closed := true }

/-- Modelled from the spec: one read.  A closed reader yields the
"iterator closed" sentinel and no data; a cancelled context yields the
cancellation error; an exhausted reader yields EOF; otherwise the next
chunk is delivered. -/
def crRead (r : CancelableReader) : Except IterErr (String × CancelableReader) :=
  if r.closed then .error .iteratorClosed
  else if r.ctxCanceled then .error .canceled
  else
    match r.pending with
    | [] => .error .eof
    | c :: rest => .ok (c, { r with pending := rest })

/-- The outcomes of `n` successive reads; a failed read leaves the
state unchanged, a successful one advances it. -/
def crReadMany : Nat → CancelableReader → List (Except IterErr String)
  | 0, _ => []
  | n + 1, r =>
      match crRead r with
      | .error e => .error e :: crReadMany n r
      | .ok (c, r') => .ok c :: crReadMany n r'

/-! ## Query-option validation (spec §4.5); the planner's code is not
among the sources, only its tests (`query_test.go`). -/

/-- Modelled from the spec: the query options relevant to the map-only
validation — `reduce` (unset, `false` or `true`), `group`, and
`group_level` (0 when unset). -/
structure QueryOptions where
  reduce : Option Bool
  group : Bool
  groupLevel : Nat

/-- Modelled from the spec: validation of reduce-related options against
a view with no reduce function (the planner rejects
`group` / `group_level` / `reduce=true` on a map-only view with
BadRequest, naming the offending option).  The error messages follow
`query_test.go`. -/
def validateMapOnlyOptions (hasReducer : Bool) (opts : QueryOptions) :
    Except KError Unit :=
  if hasReducer then .ok ()
  else if opts.reduce = some true then
    .error { status := 400, msg := "reduce is invalid for map-only views" }
  else if opts.group then
    .error { status := 400, msg := "group is invalid for map-only views" }
  else if 0 < opts.groupLevel then
    .error { status := 400, msg := "group_level is invalid for map-only views" }
  else .ok ()

/-- Modelled from the spec: a view query first validates its options;
on a validation error no rows are produced. -/
def runViewQuery (hasReducer : Bool) (opts : QueryOptions) (rows : List Row) :
    Except KError (List Row) :=
  match validateMapOnlyOptions hasReducer opts with
  | .error e => .error e
  | .ok _ => .ok rows

/-! ## The scripting sandbox for reduce functions (spec §4.1); the
sandbox code is not among the sources, only its tests. -/

/-- A log record produced through the log sink supplied by the
driver. -/
structure LogRecord where
  msg : String
deriving DecidableEq

/-- A user (JavaScript) reduce function as the sandbox sees it: it
either returns a single JSON result or throws an exception carrying a
message. -/
def JSFunc : Type :=
  List (JSON × String) → List JSON → Bool → Except String JSON

/-- Modelled from the spec: one sandboxed invocation of a user reduce
function — a normal return yields the value and no log; an exception
yields `null` plus a log record, and never an error. -/
def sandboxReduceCall (f : JSFunc) (keys : List (JSON × String))
    (values : List JSON) (rereduce : Bool) : JSON × List LogRecord :=
  match f keys values rereduce with
  | .ok v => (v, [])
  | .error e => (.null, [{ msg := "reduce function threw exception: " ++ e }])

/-- Modelled from the spec: the reduce `Func` the engine obtains for a
sandboxed user function; it always succeeds with the single sandboxed
result. -/
def sandboxFunc (f : JSFunc) : RFunc := fun keys values rereduce =>
  .ok [(sandboxReduceCall f keys values rereduce).1]

/-- A reduce function that always throws, as in the
"reduce function throws an exception" test. -/
def throwingFn : JSFunc := fun _ _ _ => .error "Error: broken"

/-! ## The built-in `_stats` reducer (spec §3 and §8, scenario 3); its
code is not among the sources, only its tests. -/

/-- The numeric `_stats` aggregate `{sum, min, max, count, sumsqr}`. -/
structure StatsValue where
  sum : Int
  min : Int
  max : Int
  count : Int
  sumsqr : Int
deriving DecidableEq

/-- First field of the object with the given name, if any. -/
def lookupField (fields : List (String × JSON)) (name : String) : Option JSON :=
  match fields with
  | [] => none
  | (k, v) :: rest => if k == name then some v else lookupField rest name

/-- Modelled from the spec: reading one map value for `_stats` — a
number `n` contributes `{sum n, min n, max n, count 1, sumsqr n²}`; an
object with numeric `sum`, `min`, `max`, `count` and `sumsqr` fields is
taken as a pre-aggregated value, any extra fields ignored; anything
else is rejected. -/
def statsOfJSON : JSON → Option StatsValue
  | .num n => some { sum := n, min := n, max := n, count := 1, sumsqr := n * n }
  | .obj fields =>
      match lookupField fields "sum", lookupField fields "min",
          lookupField fields "max", lookupField fields "count",
          lookupField fields "sumsqr" with
      | some (.num s), some (.num mn), some (.num mx), some (.num c), some (.num sq) =>
          some { sum := s, min := mn, max := mx, count := c, sumsqr := sq }
      | _, _, _, _, _ => none
  | _ => none

/-- Modelled from the spec: combining two `_stats` aggregates. -/
def statsMerge (a b : StatsValue) : StatsValue :=
  { sum := a.sum + b.sum, min := min a.min b.min, max := max a.max b.max,
    count := a.count + b.count, sumsqr := a.sumsqr + b.sumsqr }

/-- Modelled from the spec: folding `_stats` over a batch of values. -/
def statsOfValues : List JSON → Option StatsValue
  | [] => none
  | [v] => statsOfJSON v
  | v :: rest =>
      match statsOfJSON v, statsOfValues rest with
      | some s, some t => some (statsMerge s t)
      | _, _ => none

/-- Rendering a `_stats` aggregate back to JSON, in the field order the
tests expect. -/
def statsToJSON (s : StatsValue) : JSON :=
  .obj [("sum", .num s.sum), ("min", .num s.min), ("max", .num s.max),
        ("count", .num s.count), ("sumsqr", .num s.sumsqr)]

/-- Modelled from the spec: the `_stats` reducer as a reduce `Func`
(the re-reduce phase consumes the same aggregate objects it
produces). -/
def statsFunc : RFunc := fun _ values _ =>
  match statsOfValues values with
  | some s => .ok [statsToJSON s]
  | none => .error "the _stats function requires that map values be numbers or arrays of numbers"

/-! ## Concrete reduce functions used as inputs of the theorems below -/

/-- A well-behaved summing reducer (the behaviour of the built-in
`_sum` on numeric values), used as a concrete input. -/
def sumValues : RFunc := fun _ values _ =>
  .ok [.num (values.foldl (fun a v => a + (match v with | .num n => n | _ => 0)) 0)]

/-- A reducer returning two outputs for any batch, used as a concrete
input for the multi-output claims. -/
def twoOutFn : RFunc := fun _ _ _ => .ok [.num 7, .num 8]

/-! ## Theorems -/

/-- C3: truncating any key at group level 0 yields the null
(no-grouping) key; an array key of length L truncated at level N with
0 < N < L keeps its first N elements; an array key with N ≥ L (N ≠ 0)
is kept whole; a non-array key is its own group for every level N ≥ 1
or negative; a negative level keeps the full key. -/
theorem truncateKey_spec (key : JSON) (level : Int) :
    (truncateKey key 0 = .null)
    ∧ (∀ xs, key = .arr xs → 0 < level → level < (xs.length : Int) →
        truncateKey key level = .arr (xs.take level.toNat))
    ∧ (∀ xs, key = .arr xs → level ≠ 0 → (xs.length : Int) ≤ level →
        truncateKey key level = key)
    ∧ ((∀ xs, key ≠ .arr xs) → (1 ≤ level ∨ level < 0) →
        truncateKey key level = key)
    ∧ (level < 0 → truncateKey key level = key) := by
  refine ⟨by simp [truncateKey], ?_, ?_, ?_, ?_⟩
  · rintro xs rfl h1 h2
    have h0 : ¬ level = 0 := by omega
    simp [truncateKey, h0, h1, h2]
  · rintro xs rfl h0 hle
    have hnot : ¬ (0 < level ∧ level < (xs.length : Int)) := by omega
    simp [truncateKey, h0, hnot]
  · intro hna hlv
    have h0 : ¬ level = 0 := by omega
    cases key with
    | arr xs => exact absurd rfl (hna xs)
    | null => simp [truncateKey, h0]
    | bool b => simp [truncateKey, h0]
    | num n => simp [truncateKey, h0]
    | str s => simp [truncateKey, h0]
    | obj fields => simp [truncateKey, h0]
  · intro hneg
    have h0 : ¬ level = 0 := by omega
    cases key with
    | arr xs =>
        have hnot : ¬ (0 < level ∧ level < (xs.length : Int)) := by omega
        simp [truncateKey, h0, hnot]
    | null => simp [truncateKey, h0]
    | bool b => simp [truncateKey, h0]
    | num n => simp [truncateKey, h0]
    | str s => simp [truncateKey, h0]
    | obj fields => simp [truncateKey, h0]

/-- Witness for C3: the clauses of `truncateKey_spec` evaluated at
concrete keys and levels. -/
theorem truncateKey_spec_witness :
    truncateKey (.arr [.num 1, .num 2, .num 3]) 2 = .arr [.num 1, .num 2]
    ∧ truncateKey (.arr [.num 1, .num 2]) 5 = .arr [.num 1, .num 2]
    ∧ truncateKey (.str "a") 1 = .str "a"
    ∧ truncateKey (.arr [.num 1, .num 2]) (-1) = .arr [.num 1, .num 2] :=
  ⟨(truncateKey_spec (.arr [.num 1, .num 2, .num 3]) 2).2.1 _ rfl
      (by norm_num) (by norm_num),
   (truncateKey_spec (.arr [.num 1, .num 2]) 5).2.2.1 _ rfl
      (by norm_num) (by norm_num),
   (truncateKey_spec (.str "a") 1).2.2.2.1 (fun xs h => by cases h) (Or.inl le_rfl),
   (truncateKey_spec (.arr [.num 1, .num 2]) (-1)).2.2.2.2 (by norm_num)⟩

/-- C4: a batch holding exactly one input row, flushed in the rereduce
phase, bypasses the reducer entirely — for every reduce function the
single value is passed through unchanged as the output row's value,
carrying the batch's group key and sequence range. -/
theorem callReduce_single_rereduce_passthrough (fn : RFunc) (acc : ReduceAcc)
    (k : JSON) (kid : String) (v : JSON) (key : JSON) :
    callReduce fn acc [(k, kid)] [v] true key =
      .ok { acc with out := acc.out ++
              [{ first := acc.first, last := acc.last, id := "",
                 key := key, value := v }] } := by
  simp [callReduce]

/-- Once the sequence counters have been consumed by the first result,
every further result row is built with `first = last = 0`. -/
theorem buildRows_zero (results : List JSON) (key : JSON) :
    buildRows results 0 0 key =
      (results.map fun r =>
        { first := 0, last := 0, id := "",
          key := if keyLen key > 0 then key else .null, value := r }, 0, 0) := by
  induction results with
  | nil => rfl
  | cons r rest ih => simp [buildRows, ih]

/-- Counterexample to C2: with the batch sequence range `first = 1`,
`last = 2`, a reducer returning two outputs yields a first row carrying
`(1, 2)` but a second row carrying `(0, 0)` — not every output row
inherits the batch's sequence range. -/
theorem callReduce_multi_output_cex :
    callReduce twoOutFn { out := [], first := 1, last := 2 }
        [(.str "a", "x"), (.str "a", "y")] [.num 1, .num 1] false (.str "a") =
      .ok { out := [{ first := 1, last := 2, id := "", key := .str "a", value := .num 7 },
                    { first := 0, last := 0, id := "", key := .str "a", value := .num 8 }],
            first := 0, last := 0 }
    ∧ ¬ (∀ r ∈ [({ first := 1, last := 2, id := "", key := .str "a", value := .num 7 } : Row),
                { first := 0, last := 0, id := "", key := .str "a", value := .num 8 }],
          r.first = 1 ∧ r.last = 2) := by
  constructor
  · rfl
  · intro h
    have := (h { first := 0, last := 0, id := "", key := .str "a", value := .num 8 }
      (by simp)).1
    exact absurd this (by norm_num)

/-- C2 (amended): when the reducer returns multiple output values, only
the first resulting output row carries the batch's sequence range; every
subsequent output row carries `First = Last = 0` (the counters are reset
after each appended row). -/
theorem callReduce_multi_output_seq_range (fn : RFunc) (acc : ReduceAcc)
    (k1 k2 : JSON × String) (ks : List (JSON × String)) (values : List JSON)
    (rereduce : Bool) (key : JSON) (r1 r2 : JSON) (rs : List JSON)
    (hfn : fn (k1 :: k2 :: ks) values rereduce = .ok (r1 :: r2 :: rs)) :
    callReduce fn acc (k1 :: k2 :: ks) values rereduce key =
      .ok { out := acc.out ++
              ({ first := acc.first, last := acc.last, id := "",
                 key := if keyLen key > 0 then key else .null, value := r1 } ::
                (r2 :: rs).map fun v =>
                  { first := 0, last := 0, id := "",
                    key := if keyLen key > 0 then key else .null, value := v }),
            first := 0, last := 0 } := by
  simp [callReduce, hfn, buildRows, buildRows_zero]

/-- Witness for the amended C2: the two-output reducer applied to a
concrete batch with sequence range `(1, 2)`. -/
theorem callReduce_multi_output_seq_range_witness :
    callReduce twoOutFn { out := [], first := 1, last := 2 }
        [(.str "b", "x"), (.str "b", "y")] [.num 1, .num 1] false (.str "b") =
      .ok { out := [{ first := 1, last := 2, id := "", key := .str "b", value := .num 7 },
                    { first := 0, last := 0, id := "", key := .str "b", value := .num 8 }],
            first := 0, last := 0 } := by
  simpa using callReduce_multi_output_seq_range twoOutFn
    { out := [], first := 1, last := 2 } (.str "b", "x") (.str "b", "y") []
    [.num 1, .num 1] false (.str "b") (.num 7) (.num 8) [] rfl

/-- C1 (code bug): on a key-sorted stream where group `"a"` precedes
group `"b"` and group `"b"`'s inputs are split between a raw row and a
pre-reduced row, the procedure returns two adjacent output rows with
equal truncated keys instead of re-reducing: the scan compares every
output row against `out[0]` only (`lastKey` is never updated), so the
duplicate in a later group goes undetected. -/
theorem reduce_misses_adjacent_rereduce :
    reduce 2 sumValues (-1)
      [{ first := 1, last := 1, id := "x", key := .str "a", value := .num 1 },
       { first := 2, last := 2, id := "y", key := .str "b", value := .num 1 },
       { first := 1, last := 2, id := "", key := .str "b", value := .num 1 }] =
      .ok [{ first := 1, last := 1, id := "", key := .str "a", value := .num 1 },
           { first := 2, last := 2, id := "", key := .str "b", value := .num 1 },
           { first := 1, last := 2, id := "", key := .str "b", value := .num 1 }]
    ∧ ([({ first := 1, last := 1, id := "", key := .str "a", value := .num 1 } : Row),
        { first := 2, last := 2, id := "", key := .str "b", value := .num 1 },
        { first := 1, last := 2, id := "", key := .str "b", value := .num 1 }].map
          fun r => truncateKey r.key (-1)) = [.str "a", .str "b", .str "b"]
    ∧ reduce 2 sumValues (-1)
        [{ first := 1, last := 1, id := "y", key := .str "b", value := .num 1 },
         { first := 1, last := 2, id := "", key := .str "b", value := .num 1 }] =
        .ok [{ first := 1, last := 2, id := "", key := .str "b", value := .num 2 }] :=
  ⟨rfl, rfl, rfl⟩

/-- C7: with `_stats` over a single group whose map values are the
number 100 (doc a) and the pre-aggregated object
`{sum:5,min:5,max:5,count:5,sumsqr:5,ignored:5}` (doc b), the query
returns exactly one row with value
`{sum:105,min:5,max:100,count:6,sumsqr:10005}`; the extra `ignored`
field of a pre-aggregated input changes nothing. -/
theorem stats_prereduce_scenario :
    reduce 2 statsFunc 0
      [{ first := 1, last := 1, id := "a", key := .str "b", value := .num 100 },
       { first := 2, last := 2, id := "b", key := .str "b",
         value := .obj [("sum", .num 5), ("min", .num 5), ("max", .num 5),
                        ("count", .num 5), ("sumsqr", .num 5), ("ignored", .num 5)] }] =
      .ok [{ first := 1, last := 2, id := "", key := .null,
             value := .obj [("sum", .num 105), ("min", .num 5), ("max", .num 100),
                            ("count", .num 6), ("sumsqr", .num 10005)] }]
    ∧ statsOfJSON (.obj [("sum", .num 5), ("min", .num 5), ("max", .num 5),
                         ("count", .num 5), ("sumsqr", .num 5), ("ignored", .num 5)]) =
        statsOfJSON (.obj [("sum", .num 5), ("min", .num 5), ("max", .num 5),
                           ("count", .num 5), ("sumsqr", .num 5)]) :=
  ⟨rfl, rfl⟩

/-- C6: a user reduce function that throws never fails the query — the
sandboxed `Func` always succeeds, yielding `null` as the value together
with a log record; and a reduced query over a group whose reducer
throws returns a row with value `null`. -/
theorem sandbox_reduce_exception_yields_null (f : JSFunc)
    (keys : List (JSON × String)) (values : List JSON) (rereduce : Bool)
    (e : String) (hf : f keys values rereduce = .error e) :
    sandboxFunc f keys values rereduce = .ok [.null]
    ∧ (sandboxReduceCall f keys values rereduce).2 =
        [{ msg := "reduce function threw exception: " ++ e }]
    ∧ (∀ ks vs b, ∃ v, sandboxFunc f ks vs b = .ok [v])
    ∧ reduce 2 (sandboxFunc throwingFn) 0
        [{ first := 1, last := 1, id := "a", key := .str "a", value := .arr [.num 1] },
         { first := 2, last := 2, id := "b", key := .str "b", value := .arr [.num 1] }] =
        .ok [{ first := 1, last := 2, id := "", key := .null, value := .null }] := by
  refine ⟨?_, ?_, ?_, rfl⟩
  · simp [sandboxFunc, sandboxReduceCall, hf]
  · simp [sandboxReduceCall, hf]
  · intro ks vs b
    exact ⟨(sandboxReduceCall f ks vs b).1, rfl⟩

/-- Witness for C6: the always-throwing reducer at a concrete batch. -/
theorem sandbox_reduce_exception_yields_null_witness :
    sandboxFunc throwingFn [(.str "a", "a")] [.num 1] false = .ok [.null]
    ∧ (sandboxReduceCall throwingFn [(.str "a", "a")] [.num 1] false).2 =
        [{ msg := "reduce function threw exception: Error: broken" }] := by
  have h := sandbox_reduce_exception_yields_null throwingFn
    [(.str "a", "a")] [.num 1] false "Error: broken" rfl
  exact ⟨h.1, h.2.1⟩

/-- C5: on a view without a reduce function, a query with `reduce=true`,
`group`, or a positive `group_level` fails with a BadRequest (400) whose
message names the offending option as invalid for map-only views, and no
rows are returned. -/
theorem mapOnly_options_rejected (opts : QueryOptions) (rows : List Row)
    (h : opts.reduce = some true ∨ opts.group = true ∨ 0 < opts.groupLevel) :
    ∃ e : KError, runViewQuery false opts rows = .error e ∧ e.status = 400 ∧
      (e.msg = "reduce is invalid for map-only views" ∨
       e.msg = "group is invalid for map-only views" ∨
       e.msg = "group_level is invalid for map-only views") := by
  by_cases h1 : opts.reduce = some true
  · exact ⟨{ status := 400, msg := "reduce is invalid for map-only views" },
      by simp [runViewQuery, validateMapOnlyOptions, h1], rfl, Or.inl rfl⟩
  · by_cases h2 : opts.group = true
    · exact ⟨{ status := 400, msg := "group is invalid for map-only views" },
        by simp [runViewQuery, validateMapOnlyOptions, h1, h2], rfl,
        Or.inr (Or.inl rfl)⟩
    · have h3 : 0 < opts.groupLevel := by
        rcases h with h | h | h
        · exact absurd h h1
        · exact absurd h h2
        · exact h
      exact ⟨{ status := 400, msg := "group_level is invalid for map-only views" },
        by simp [runViewQuery, validateMapOnlyOptions, h1, h2, h3], rfl,
        Or.inr (Or.inr rfl)⟩

/-- Witness for C5: `group_level=2` on a map-only view. -/
theorem mapOnly_options_rejected_witness :
    ∃ e : KError,
      runViewQuery false { reduce := none, group := false, groupLevel := 2 } [] = .error e
      ∧ e.status = 400
      ∧ (e.msg = "reduce is invalid for map-only views" ∨
         e.msg = "group is invalid for map-only views" ∨
         e.msg = "group_level is invalid for map-only views") :=
  mapOnly_options_rejected { reduce := none, group := false, groupLevel := 2 } []
    (Or.inr (Or.inr (by norm_num)))

/-- C8: once a reader is closed before exhaustion, every subsequent read
returns the "iterator closed" sentinel and no data, and that sentinel is
distinct from both the end-of-data condition and the cancellation
error. -/
theorem closed_iterator_sentinel (r : CancelableReader) (n : Nat) :
    crReadMany n (crClose r) = List.replicate n (.error .iteratorClosed)
    ∧ IterErr.iteratorClosed ≠ IterErr.eof
    ∧ IterErr.iteratorClosed ≠ IterErr.canceled := by
  refine ⟨?_, by simp, by simp⟩
  induction n with
  | zero => rfl
  | succ n ih => simp [crReadMany, crRead, crClose, List.replicate_succ] at ih ⊢; exact ih

/-- The boolean matcher `validDBName` agrees with the declarative
reading of the regular expression `^[a-z][a-z0-9_$()/+-]*$`. -/
theorem validDBName_eq_true_iff (s : String) :
    validDBName s = true ↔ DBNamePattern s := by
  unfold validDBName DBNamePattern
  cases hs : s.data with
  | nil => simp [hs]
  | cons c rest =>
      simp [hs, isDBNameFirstChar, isDBNameRestChar, List.all_eq_true]
      constructor
      · rintro ⟨h1, h2⟩
        exact ⟨c, rest, ⟨rfl, rfl⟩, h1, fun x hx => by have := h2 x hx; tauto⟩
      · rintro ⟨c1, r1, ⟨rfl, rfl⟩, h1, h2⟩
        exact ⟨h1, fun x hx => by have := h2 x hx; tauto⟩

/-- C9: a database name not matching the pattern makes `CreateDB`
return BadRequest "invalid database name" without reaching the driver;
a matching name is forwarded to the driver unchanged. -/
theorem createDB_name_validation (dbName : String) :
    (¬ DBNamePattern dbName → createDB dbName = .badRequest 400 "invalid database name")
    ∧ (DBNamePattern dbName → createDB dbName = .driverCreateDB dbName) := by
  constructor
  · intro hnot
    have hv : validDBName dbName = false := by
      cases h : validDBName dbName
      · rfl
      · exact absurd ((validDBName_eq_true_iff dbName).1 h) hnot
    simp [createDB, hv]
  · intro hpat
    have hv : validDBName dbName = true := (validDBName_eq_true_iff dbName).2 hpat
    simp [createDB, hv]

/-- Witness for C9: the name `"_users"` (leading underscore) is
rejected; the name `"abc"` reaches the driver. -/
theorem createDB_name_validation_witness :
    createDB "_users" = .badRequest 400 "invalid database name"
    ∧ createDB "abc" = .driverCreateDB "abc" := by
  constructor
  · refine (createDB_name_validation "_users").1 ?_
    rintro ⟨c, rest, hdata, hfirst, -⟩
    have hd : ('_' : Char) :: ['u', 's', 'e', 'r', 's'] = c :: rest := hdata
    injection hd with h1 h2
    subst h1
    exact absurd hfirst.1 (by decide)
  · exact (createDB_name_validation "abc").2
      ⟨'a', ['b', 'c'], rfl, by decide, by decide⟩

/-- C10: an empty Members section grants open read access to every user
(even unauthenticated); with a non-empty Members section, a nil user is
rejected with 401, a user matching any member or admin name or role (or
holding the server admin role) is admitted, and every other user is
rejected with 403. -/
theorem validateDBMembership_spec (user : Option UserContext) (sec : Security) :
    ((sec.members.names = [] ∧ sec.members.roles = []) →
        validateDBMembership user sec = .ok ())
    ∧ (¬(sec.members.names = [] ∧ sec.members.roles = []) →
        validateDBMembership none sec =
          .error { status := 401, msg := "User not authenticated" })
    ∧ ∀ u : UserContext, ¬(sec.members.names = [] ∧ sec.members.roles = []) →
        ((u.name ∈ sec.members.names ∨ (∃ role ∈ sec.members.roles, role ∈ u.roles) ∨
          u.name ∈ sec.admins.names ∨ (∃ role ∈ sec.admins.roles, role ∈ u.roles) ∨
          RoleAdmin ∈ u.roles) →
            validateDBMembership (some u) sec = .ok ())
        ∧ (¬(u.name ∈ sec.members.names ∨ (∃ role ∈ sec.members.roles, role ∈ u.roles) ∨
             u.name ∈ sec.admins.names ∨ (∃ role ∈ sec.admins.roles, role ∈ u.roles) ∨
             RoleAdmin ∈ u.roles) →
            validateDBMembership (some u) sec =
              .error { status := 403, msg := "User lacks sufficient privileges" }) := by
  have hlen : ∀ (p : ¬(sec.members.names = [] ∧ sec.members.roles = [])),
      ¬(sec.members.names.length = 0 ∧ sec.members.roles.length = 0) := by
    intro p
    simp only [List.length_eq_zero]
    exact p
  refine ⟨?_, ?_, ?_⟩
  · rintro ⟨h1, h2⟩
    simp [validateDBMembership, h1, h2]
  · intro hne
    unfold validateDBMembership
    rw [if_neg (hlen hne)]
  · intro u hne
    have hne' := hlen hne
    have hstep : validateDBMembership (some u) sec =
        (if (sec.members.names.any fun x => x == u.name) = true then Except.ok ()
         else if sec.members.roles.any u.hasRole = true then Except.ok ()
         else if (sec.admins.names.any fun x => x == u.name) = true then Except.ok ()
         else if sec.admins.roles.any u.hasRole = true then Except.ok ()
         else if u.hasRole RoleAdmin = true then Except.ok ()
         else Except.error { status := 403, msg := "User lacks sufficient privileges" }) := by
      unfold validateDBMembership
      rw [if_neg hne']
    constructor
    · intro hgrant
      rw [hstep]
      by_cases c1 : (sec.members.names.any fun x => x == u.name) = true
      · rw [if_pos c1]
      · rw [if_neg c1]
        by_cases c2 : sec.members.roles.any u.hasRole = true
        · rw [if_pos c2]
        · rw [if_neg c2]
          by_cases c3 : (sec.admins.names.any fun x => x == u.name) = true
          · rw [if_pos c3]
          · rw [if_neg c3]
            by_cases c4 : sec.admins.roles.any u.hasRole = true
            · rw [if_pos c4]
            · rw [if_neg c4]
              by_cases c5 : u.hasRole RoleAdmin = true
              · rw [if_pos c5]
              · exfalso
                rcases hgrant with h | h | h | h | h
                · exact c1 (by simpa using h)
                · exact c2 (by simpa [UserContext.hasRole] using h)
                · exact c3 (by simpa using h)
                · exact c4 (by simpa [UserContext.hasRole] using h)
                · exact c5 (by simpa [UserContext.hasRole] using h)
    · intro hng
      push_neg at hng
      obtain ⟨g1, g2, g3, g4, g5⟩ := hng
      rw [hstep,
          if_neg (by simpa using g1),
          if_neg (by simpa [UserContext.hasRole] using g2),
          if_neg (by simpa using g3),
          if_neg (by simpa [UserContext.hasRole] using g4),
          if_neg (by simpa [UserContext.hasRole] using g5)]

/-- Witness for C10: open access with empty Members; 401 for a nil user,
admission for a listed member, and 403 for an unlisted user once Members
is non-empty. -/
theorem validateDBMembership_spec_witness :
    validateDBMembership none
      { admins := { names := [], roles := [] },
        members := { names := [], roles := [] } } = .ok ()
    ∧ validateDBMembership none
        { admins := { names := [], roles := [] },
          members := { names := ["m"], roles := [] } } =
        .error { status := 401, msg := "User not authenticated" }
    ∧ validateDBMembership (some { name := "m", roles := [] })
        { admins := { names := [], roles := [] },
          members := { names := ["m"], roles := [] } } = .ok ()
    ∧ validateDBMembership (some { name := "z", roles := [] })
        { admins := { names := [], roles := [] },
          members := { names := ["m"], roles := [] } } =
        .error { status := 403, msg := "User lacks sufficient privileges" } := by
  refine ⟨?_, ?_, ?_, ?_⟩
  · exact (validateDBMembership_spec none _).1 ⟨rfl, rfl⟩
  · exact (validateDBMembership_spec none _).2.1 (by simp)
  · exact ((validateDBMembership_spec (some { name := "m", roles := [] })
      { admins := { names := [], roles := [] },
        members := { names := ["m"], roles := [] } }).2.2
      { name := "m", roles := [] } (by simp)).1 (Or.inl (by simp))
  · exact ((validateDBMembership_spec (some { name := "z", roles := [] })
      { admins := { names := [], roles := [] },
        members := { names := ["m"], roles := [] } }).2.2
      { name := "z", roles := [] } (by simp)).2 (by simp [RoleAdmin])

end Kivik
